import Mathlib

/-!
Shallow embedding of the meta-rest library (src/lib.rs): schema model,
dynamic JSON-like values, validator, in-memory storage engine, filter
evaluator and resource manager, with theorems checking the specification.

JSON numbers are modelled as rationals: every comparison the code performs
on `f64` values (`<`, `>`, equality) is exact on the dyadic rationals that
`f64` represents, so rational comparisons agree with the source on all
representable inputs. A Rust `HashMap` is modelled as an association list
with unique keys; `insert` replaces the value of an existing key in place.
-/

namespace MetaRest

/-- Dynamic JSON value (`serde_json::Value`). -/
inductive Value where
  | null : Value
  | bool (b : Bool) : Value
  | num (q : Rat) : Value
  | str (s : String) : Value
  | arr (elems : List Value) : Value
  | obj (entries : List (String × Value)) : Value

mutual

/-- Structural equality of dynamic values (`serde_json::Value: PartialEq`). -/
def Value.beq : Value → Value → Bool
  | .null, .null => true
  | .bool a, .bool b => a == b
  | .num a, .num b => a == b
  | .str a, .str b => a == b
  | .arr a, .arr b => valueListBeq a b
  | .obj a, .obj b => valueEntriesBeq a b
  | _, _ => false

def valueListBeq : List Value → List Value → Bool
  | [], [] => true
  | a :: as, b :: bs => Value.beq a b && valueListBeq as bs
  | _, _ => false

def valueEntriesBeq : List (String × Value) → List (String × Value) → Bool
  | [], [] => true
  | (k1, v1) :: as, (k2, v2) :: bs => k1 == k2 && Value.beq v1 v2 && valueEntriesBeq as bs
  | _, _ => false

end

/-- `Value::is_string`. -/
def Value.is_string : Value → Bool
  | .str _ => true
  | _ => false

/-- `Value::is_number`. -/
def Value.is_number : Value → Bool
  | .num _ => true
  | _ => false

/-- `Value::is_boolean`. -/
def Value.is_boolean : Value → Bool
  | .bool _ => true
  | _ => false

/-- `Value::is_array`. -/
def Value.is_array : Value → Bool
  | .arr _ => true
  | _ => false

/-- `Value::is_object`. -/
def Value.is_object : Value → Bool
  | .obj _ => true
  | _ => false

/-- `Value::as_f64`: numeric view of a value, `none` for non-numbers. -/
def Value.as_f64 : Value → Option Rat
  | .num q => some q
  | _ => none

/-- `Value::as_str`: string view of a value, `none` for non-strings. -/
def Value.as_str : Value → Option String
  | .str s => some s
  | _ => none

/-- Validation rules for fields (`ValidationRule`). -/
structure ValidationRule where
  min : Option Rat
  max : Option Rat
  pattern : Option String

/-- A field in a resource definition (`Field`). -/
structure Field where
  name : String
  field_type : String
  required : Bool
  validation : Option ValidationRule

/-- Security policy for a resource (`SecurityPolicy`). -/
structure SecurityPolicy where
  require_auth : Bool
  allowed_roles : Option (List String)

/-- Resource meta-description (`ResourceDefinition`). -/
structure ResourceDefinition where
  name : String
  fields : List Field
  security : Option SecurityPolicy

/-- A resource instance with dynamic data (`Resource`); `data` models the
`HashMap<String, serde_json::Value>` as an association list. -/
structure Resource where
  id : String
  data : List (String × Value)

/-- Filter criteria for querying resources (`Filter`). -/
structure Filter where
  field : String
  operator : String
  value : Value

/-- Error types for meta-REST operations (`MetaRestError`). -/
inductive MetaRestError where
  | notFound (msg : String) : MetaRestError
  | validationError (msg : String) : MetaRestError
  | storageError (msg : String) : MetaRestError
  | invalidOperation (msg : String) : MetaRestError
deriving DecidableEq

/-- Is the error the `ValidationError` variant? -/
def MetaRestError.isValidationError : MetaRestError → Bool
  | .validationError _ => true
  | _ => false

/-- Is the error the `InvalidOperation` variant? -/
def MetaRestError.isInvalidOperation : MetaRestError → Bool
  | .invalidOperation _ => true
  | _ => false

/-- Did the operation succeed (`Result::is_ok`)? -/
def isOkE {α : Type} : Except MetaRestError α → Bool
  | .ok _ => true
  | .error _ => false

/-- Is the result an `InvalidOperation` error? -/
def isInvalidOpE {α : Type} : Except MetaRestError α → Bool
  | .error (.invalidOperation _) => true
  | _ => false

/-- Is the result a `ValidationError`? -/
def isValidationErrE {α : Type} : Except MetaRestError α → Bool
  | .error (.validationError _) => true
  | _ => false

/-- `HashMap::get` on the association-list model. -/
def lookupKey {α : Type} : List (String × α) → String → Option α
  | [], _ => none
  | (k1, v1) :: rest, k => if k1 = k then some v1 else lookupKey rest k

/-- `HashMap::contains_key`. -/
def containsKey {α : Type} (m : List (String × α)) (k : String) : Bool :=
  (lookupKey m k).isSome

/-- `HashMap::insert`: replace the value of an existing key, else append. -/
def insertKey {α : Type} : List (String × α) → String → α → List (String × α)
  | [], k, v => [(k, v)]
  | (k1, v1) :: rest, k, v =>
    if k1 = k then (k, v) :: rest else (k1, v1) :: insertKey rest k v

/-- `HashMap::remove`. -/
def removeKey {α : Type} : List (String × α) → String → List (String × α)
  | [], _ => []
  | (k1, v1) :: rest, k => if k1 = k then rest else (k1, v1) :: removeKey rest k

/-- Rust `min as usize` on a (finite) `f64`: truncation toward zero,
saturating at zero for negative inputs. -/
def f64AsUsize (q : Rat) : Nat :=
  q.floor.toNat

/-- Do the characters of the second list start with the first list? -/
def charsStartWith : List Char → List Char → Bool
  | [], _ => true
  | _ :: _, [] => false
  | a :: as, b :: bs => a == b && charsStartWith as bs

/-- Does the second character list contain the first as a contiguous run? -/
def charsContain (needle : List Char) : List Char → Bool
  | [] => charsStartWith needle []
  | b :: bs => charsStartWith needle (b :: bs) || charsContain needle bs

/-- Rust `str::contains` (substring containment) on the haystack `hay`. -/
def strContains (hay needle : String) : Bool :=
  charsContain needle.data hay.data

/-- Type check of `ResourceManager::validate` (the `valid_type` match):
a declared type tag constrains the value; unknown tags are allowed. -/
def typeOk (ft : String) (v : Value) : Bool :=
  if ft = "string" then v.is_string
  else if ft = "number" then v.is_number
  else if ft = "boolean" then v.is_boolean
  else if ft = "array" then v.is_array
  else if ft = "object" then v.is_object
  else true

/-- The `rules.min` branch of `ResourceManager::validate`: for a `number`
field bound the numeric value below, for a `string` field bound the UTF-8
byte length (`s.len() < min as usize`) below; other types are unchecked. -/
def checkMin (f : Field) (mn : Rat) (v : Value) : Except MetaRestError Unit :=
  if f.field_type = "number" then
    match v.as_f64 with
    | some num =>
      if num < mn then
        .error (.validationError ("Field \x27" ++ f.name ++ "\x27 value " ++ toString num
          ++ " is less than minimum " ++ toString mn))
      else .ok ()
    | none => .ok ()
  else if f.field_type = "string" then
    match v.as_str with
    | some s =>
      if s.utf8ByteSize < f64AsUsize mn then
        .error (.validationError ("Field \x27" ++ f.name ++ "\x27 length is less than minimum "
          ++ toString mn))
      else .ok ()
    | none => .ok ()
  else .ok ()

/-- The `rules.max` branch of `ResourceManager::validate`, mirror of
`checkMin` with the upper bound (`s.len() > max as usize`). -/
def checkMax (f : Field) (mx : Rat) (v : Value) : Except MetaRestError Unit :=
  if f.field_type = "number" then
    match v.as_f64 with
    | some num =>
      if mx < num then
        .error (.validationError ("Field \x27" ++ f.name ++ "\x27 value " ++ toString num
          ++ " is greater than maximum " ++ toString mx))
      else .ok ()
    | none => .ok ()
  else if f.field_type = "string" then
    match v.as_str with
    | some s =>
      if f64AsUsize mx < s.utf8ByteSize then
        .error (.validationError ("Field \x27" ++ f.name ++ "\x27 length is greater than maximum "
          ++ toString mx))
      else .ok ()
    | none => .ok ()
  else .ok ()

/-- Per-value part of `ResourceManager::validate` for one field: the type
check followed by the optional min/max rules. -/
def checkFieldValue (f : Field) (v : Value) : Except MetaRestError Unit :=
  if typeOk f.field_type v = false then
    .error (.validationError ("Field \x27" ++ f.name ++ "\x27 has invalid type, expected \x27"
      ++ f.field_type ++ "\x27"))
  else
    match f.validation with
    | none => .ok ()
    | some rules =>
      match (match rules.min with
             | some mn => checkMin f mn v
             | none => .ok ()) with
      | .error e => .error e
      | .ok () =>
        match rules.max with
        | some mx => checkMax f mx v
        | none => .ok ()

/-- The field loop of `ResourceManager::validate`, in declaration order with
the first failure short-circuiting: required check, then, when the field is
present in the record data, the type and rule checks. -/
def validateFields (fields : List Field) (r : Resource) : Except MetaRestError Unit :=
  match fields with
  | [] => .ok ()
  | f :: rest =>
    if f.required && !(containsKey r.data f.name) then
      .error (.validationError ("Required field \x27" ++ f.name ++ "\x27 is missing"))
    else
      match lookupKey r.data f.name with
      | some v =>
        match checkFieldValue f v with
        | .error e => .error e
        | .ok () => validateFields rest r
      | none => validateFields rest r

/-- In-memory storage implementation (`InMemoryStorage`): resources keyed by
id in an association list standing for the `HashMap`. -/
structure InMemoryStorage where
  resources : List (String × Resource)

/-- `InMemoryStorage::new`. -/
def InMemoryStorage.new : InMemoryStorage :=
  ⟨[]⟩

/-- `InMemoryStorage::matches_filter`: one predicate against one record. -/
def matches_filter (resource : Resource) (filter : Filter) : Bool :=
  match lookupKey resource.data filter.field with
  | none => false
  | some value =>
    if filter.operator = "eq" then value.beq filter.value
    else if filter.operator = "ne" then !(value.beq filter.value)
    else if filter.operator = "gt" then
      match value.as_f64, filter.value.as_f64 with
      | some v1, some v2 => decide (v2 < v1)
      | _, _ => false
    else if filter.operator = "lt" then
      match value.as_f64, filter.value.as_f64 with
      | some v1, some v2 => decide (v1 < v2)
      | _, _ => false
    else if filter.operator = "contains" then
      match value.as_str, filter.value.as_str with
      | some v1, some v2 => strContains v1 v2
      | _, _ => false
    else false

/-- `Storage::create` for `InMemoryStorage`: conflict on an existing id,
otherwise insert and return the record; the new state is returned alongside
the result. -/
def InMemoryStorage.create (s : InMemoryStorage) (resource : Resource) :
    Except MetaRestError Resource × InMemoryStorage :=
  if containsKey s.resources resource.id then
    (.error (.invalidOperation ("Resource with id \x27" ++ resource.id
      ++ "\x27 already exists")), s)
  else
    (.ok resource, ⟨insertKey s.resources resource.id resource⟩)

/-- `Storage::get` for `InMemoryStorage`. -/
def InMemoryStorage.get (s : InMemoryStorage) (id : String) : Except MetaRestError Resource :=
  match lookupKey s.resources id with
  | some r => .ok r
  | none => .error (.notFound ("Resource with id \x27" ++ id ++ "\x27 not found"))

/-- `Storage::list` for `InMemoryStorage`. -/
def InMemoryStorage.list (s : InMemoryStorage) : Except MetaRestError (List Resource) :=
  .ok (s.resources.map Prod.snd)

/-- `Storage::update` for `InMemoryStorage`: not-found on an absent id,
otherwise replace the stored record under the key `id`. -/
def InMemoryStorage.update (s : InMemoryStorage) (id : String) (resource : Resource) :
    Except MetaRestError Resource × InMemoryStorage :=
  if containsKey s.resources id = false then
    (.error (.notFound ("Resource with id \x27" ++ id ++ "\x27 not found")), s)
  else
    (.ok resource, ⟨insertKey s.resources id resource⟩)

/-- `Storage::delete` for `InMemoryStorage`. -/
def InMemoryStorage.delete (s : InMemoryStorage) (id : String) :
    Except MetaRestError Unit × InMemoryStorage :=
  match lookupKey s.resources id with
  | some _ => (.ok (), ⟨removeKey s.resources id⟩)
  | none => (.error (.notFound ("Resource with id \x27" ++ id ++ "\x27 not found")), s)

/-- `Storage::filter` for `InMemoryStorage`: keep the records for which every
predicate matches. -/
def InMemoryStorage.filter (s : InMemoryStorage) (filters : List Filter) :
    Except MetaRestError (List Resource) :=
  .ok ((s.resources.map Prod.snd).filter
    (fun resource => filters.all (fun filter => matches_filter resource filter)))

/-- Resource manager composing one definition with the in-memory storage
engine (`ResourceManager<InMemoryStorage>`). -/
structure ResourceManager where
  definition : ResourceDefinition
  storage : InMemoryStorage

/-- `ResourceManager::validate`: the field loop over the definition. -/
def ResourceManager.validate (m : ResourceManager) (resource : Resource) :
    Except MetaRestError Unit :=
  validateFields m.definition.fields resource

/-- `ResourceManager::create`: validate, then delegate to storage create. -/
def ResourceManager.create (m : ResourceManager) (resource : Resource) :
    Except MetaRestError Resource × ResourceManager :=
  match m.validate resource with
  | .error e => (.error e, m)
  | .ok () =>
    let (res, st) := m.storage.create resource
    (res, ⟨m.definition, st⟩)

/-- `ResourceManager::get`: pure delegation to storage. -/
def ResourceManager.get (m : ResourceManager) (id : String) : Except MetaRestError Resource :=
  m.storage.get id

/-- `ResourceManager::list`: pure delegation to storage. -/
def ResourceManager.list (m : ResourceManager) : Except MetaRestError (List Resource) :=
  m.storage.list

/-- `ResourceManager::list_filtered`: pure delegation to storage filter. -/
def ResourceManager.list_filtered (m : ResourceManager) (filters : List Filter) :
    Except MetaRestError (List Resource) :=
  m.storage.filter filters

/-- `ResourceManager::update`: validate the new record, then delegate to
storage update. -/
def ResourceManager.update (m : ResourceManager) (id : String) (resource : Resource) :
    Except MetaRestError Resource × ResourceManager :=
  match m.validate resource with
  | .error e => (.error e, m)
  | .ok () =>
    let (res, st) := m.storage.update id resource
    (res, ⟨m.definition, st⟩)

/-- `ResourceManager::delete`: pure delegation to storage. -/
def ResourceManager.delete (m : ResourceManager) (id : String) :
    Except MetaRestError Unit × ResourceManager :=
  let (res, st) := m.storage.delete id
  (res, ⟨m.definition, st⟩)

/-- The list held inside a successful filter result, `[]` on error. -/
def okList (res : Except MetaRestError (List Resource)) : List Resource :=
  match res with
  | .ok rs => rs
  | .error _ => []

/-! ### Fixtures

Concrete schemas and records used by witnesses and counterexamples, drawn
from the shapes exercised in the repository tests. -/

/-- A required string field with no validation rule. -/
def nameReqField : Field :=
  ⟨"name", "string", true, none⟩

/-- A required string field bounded by min 1 / max 3. -/
def nameBoundField : Field :=
  ⟨"name", "string", true, some ⟨some 1, some 3, none⟩⟩

/-- An optional number field bounded by min 0 / max 150. -/
def ageField : Field :=
  ⟨"age", "number", false, some ⟨some 0, some 150, none⟩⟩

/-- A one-field schema requiring `name`. -/
def userDefn : ResourceDefinition :=
  ⟨"users", [nameReqField], none⟩

/-- A record with id `1` carrying a `name` string. -/
def rJohn : Resource :=
  ⟨"1", [("name", .str "John")]⟩

/-- A second schema-valid record under the same id `1`. -/
def rJane : Resource :=
  ⟨"1", [("name", .str "Jane")]⟩

/-- A record with id `2`, distinct from the key it will be stored under. -/
def rOther : Resource :=
  ⟨"2", [("name", .str "Jane")]⟩

/-- A record with id `1` and no data at all (misses every required field). -/
def rEmpty : Resource :=
  ⟨"1", []⟩

/-- A record whose `name` holds three two-byte characters. -/
def rAccent : Resource :=
  ⟨"1", [("name", .str "ééé")]⟩

/-- A record over a number field, parameterised by the numeric value. -/
def ageRecord (q : Rat) : Resource :=
  ⟨"1", [("age", .num q)]⟩

/-- Manager over the `users` schema and an empty store. -/
def mgr0 : ResourceManager :=
  ⟨userDefn, InMemoryStorage.new⟩

/-- Manager over the `users` schema whose store already holds id `1`. -/
def mgrDup : ResourceManager :=
  ⟨userDefn, ⟨[("1", rJohn)]⟩⟩

/-! ### Helper lemmas -/

theorem lookupKey_insertKey_self {α : Type} (m : List (String × α)) (k : String) (v : α) :
    lookupKey (insertKey m k v) k = some v := by
  induction m with
  | nil => simp [insertKey, lookupKey]
  | cons p rest ih =>
    obtain ⟨k1, v1⟩ := p
    by_cases h : k1 = k
    · simp [insertKey, h, lookupKey]
    · simp [insertKey, h, lookupKey, ih]

theorem lookupKey_append_right_eq {α : Type} (d extra : List (String × α)) (k : String)
    (hex : ∀ p ∈ extra, p.1 ≠ k) :
    lookupKey (d ++ extra) k = lookupKey d k := by
  induction d with
  | nil =>
    simp only [List.nil_append]
    show lookupKey extra k = none
    induction extra with
    | nil => rfl
    | cons p rest ih =>
      obtain ⟨k1, v1⟩ := p
      have h1 : k1 ≠ k := hex (k1, v1) (by simp)
      simp only [lookupKey, if_neg h1]
      exact ih (fun q hq => hex q (by simp [hq]))
  | cons p rest ih =>
    obtain ⟨k1, v1⟩ := p
    by_cases hk : k1 = k <;> simp [lookupKey, hk, ih]

theorem checkMin_error_isValidation (f : Field) (mn : Rat) (v : Value) (e : MetaRestError)
    (h : checkMin f mn v = .error e) : e.isValidationError = true := by
  unfold checkMin at h
  repeat' split at h
  any_goals simp_all
  all_goals (subst h; rfl)

theorem checkMax_error_isValidation (f : Field) (mx : Rat) (v : Value) (e : MetaRestError)
    (h : checkMax f mx v = .error e) : e.isValidationError = true := by
  unfold checkMax at h
  repeat' split at h
  any_goals simp_all
  all_goals (subst h; rfl)

theorem checkFieldValue_error_isValidation (f : Field) (v : Value) (e : MetaRestError)
    (h : checkFieldValue f v = .error e) : e.isValidationError = true := by
  unfold checkFieldValue at h
  split at h
  · injection h with h; subst h; rfl
  · split at h
    · simp at h
    · split at h
      · rename_i e1 hcf
        injection h with h
        subst h
        split at hcf
        · rename_i mn hmn
          exact checkMin_error_isValidation _ _ _ _ hcf
        · simp at hcf
      · split at h
        · rename_i mx hmx
          exact checkMax_error_isValidation _ _ _ _ h
        · simp at h

theorem validateFields_error_isValidation (fields : List Field) (r : Resource)
    (e : MetaRestError) (h : validateFields fields r = .error e) :
    e.isValidationError = true := by
  induction fields with
  | nil => simp [validateFields] at h
  | cons f rest ih =>
    unfold validateFields at h
    split at h
    · injection h with h; subst h; rfl
    · split at h
      · split at h
        · rename_i e1 hcf
          injection h with h
          subst h
          exact checkFieldValue_error_isValidation _ _ _ hcf
        · exact ih h
      · exact ih h

theorem validateFields_congr (fs : List Field) (r1 r2 : Resource)
    (h : ∀ f ∈ fs, lookupKey r2.data f.name = lookupKey r1.data f.name) :
    validateFields fs r2 = validateFields fs r1 := by
  induction fs with
  | nil => rfl
  | cons f rest ih =>
    have hf := h f (by simp)
    have hrest : ∀ g ∈ rest, lookupKey r2.data g.name = lookupKey r1.data g.name :=
      fun g hg => h g (by simp [hg])
    simp only [validateFields, containsKey, hf, ih hrest]

/-! ### Claim theorems -/

/-- C1 (amended): for every manager and record `r` whose id is already
present in the store, `create(r)` always fails; when `r` passes schema
validation the failure is the InvalidOperation conflict error, while a
record that fails validation is rejected earlier with that validation
error instead. -/
theorem create_duplicate_id_always_fails (m : ResourceManager) (r : Resource)
    (h : containsKey m.storage.resources r.id = true) :
    isOkE (m.create r).1 = false ∧
      (m.validate r = .ok () →
        (m.create r).1 = .error (.invalidOperation ("Resource with id \x27" ++ r.id
          ++ "\x27 already exists"))) := by
  cases hv : m.validate r with
  | error e =>
    refine ⟨?_, ?_⟩
    · simp [ResourceManager.create, hv, isOkE]
    · intro h2
      exact absurd h2 (by simp [hv])
  | ok u =>
    cases u
    have hc : (m.create r).1 = .error (.invalidOperation ("Resource with id \x27" ++ r.id
        ++ "\x27 already exists")) := by
      simp [ResourceManager.create, hv, InMemoryStorage.create, h]
    exact ⟨by rw [hc]; rfl, fun _ => hc⟩

/-- C1 witness: in a store already holding id `1`, re-creating the valid
record `rJohn` fails with the InvalidOperation conflict error. -/
theorem create_duplicate_id_always_fails_witness :
    containsKey mgrDup.storage.resources rJohn.id = true ∧
      (isOkE (mgrDup.create rJohn).1 = false ∧
        (mgrDup.validate rJohn = .ok () →
          (mgrDup.create rJohn).1 = .error (.invalidOperation ("Resource with id \x27"
            ++ rJohn.id ++ "\x27 already exists")))) :=
  ⟨by decide, create_duplicate_id_always_fails mgrDup rJohn (by decide)⟩

/-- C1 counterexample: after successfully creating `rJohn` (id `1`), creating
the record `rEmpty` with the same id but missing the required `name` field
fails with a ValidationError, not with InvalidOperation as the claim
demands for every content. -/
theorem create_duplicate_invalid_content_not_invalidOp :
    isOkE (mgr0.create rJohn).1 = true ∧
      ((mgr0.create rJohn).2.create rEmpty).1
        = .error (.validationError ("Required field \x27name\x27 is missing")) ∧
      isInvalidOpE ((mgr0.create rJohn).2.create rEmpty).1 = false :=
  ⟨by decide, by rfl, by decide⟩

/-- C3: when validation rejects a record, the manager's create returns that
ValidationError and the manager (hence the storage state) is unchanged. -/
theorem create_validation_failure_no_write (m : ResourceManager) (r : Resource)
    (e : MetaRestError) (h : m.validate r = .error e) :
    m.create r = (.error e, m) ∧ e.isValidationError = true := by
  refine ⟨?_, validateFields_error_isValidation m.definition.fields r e h⟩
  simp [ResourceManager.create, h]

/-- C3 witness: creating the invalid record `rEmpty` on the empty store
returns the missing-required-field error and leaves the manager intact. -/
theorem create_validation_failure_no_write_witness :
    mgr0.validate rEmpty = .error (.validationError ("Required field \x27name\x27 is missing")) ∧
      (mgr0.create rEmpty
          = (.error (.validationError ("Required field \x27name\x27 is missing")), mgr0) ∧
        (MetaRestError.validationError ("Required field \x27name\x27 is missing")).isValidationError
          = true) :=
  ⟨by rfl, create_validation_failure_no_write mgr0 rEmpty _ (by rfl)⟩

/-- C4: for a schema-valid record whose id is free, create succeeds returning
the record unchanged, and a following get on its id returns the same record. -/
theorem create_then_get_roundtrip (m : ResourceManager) (r : Resource)
    (hv : m.validate r = .ok ()) (hid : containsKey m.storage.resources r.id = false) :
    (m.create r).1 = .ok r ∧ (m.create r).2.get r.id = .ok r := by
  have hc : m.create r = (.ok r, ⟨m.definition, ⟨insertKey m.storage.resources r.id r⟩⟩) := by
    simp [ResourceManager.create, hv, InMemoryStorage.create, hid]
  rw [hc]
  refine ⟨rfl, ?_⟩
  simp [ResourceManager.get, InMemoryStorage.get, lookupKey_insertKey_self]

/-- C4 witness: creating `rJohn` on the empty store and reading id `1` back
returns `rJohn` itself. -/
theorem create_then_get_roundtrip_witness :
    mgr0.validate rJohn = .ok () ∧ containsKey mgr0.storage.resources rJohn.id = false ∧
      ((mgr0.create rJohn).1 = .ok rJohn ∧ (mgr0.create rJohn).2.get rJohn.id = .ok rJohn) :=
  ⟨by rfl, by decide, create_then_get_roundtrip mgr0 rJohn (by rfl) (by decide)⟩

/-- C5: for a number field with min 0 / max 150, validation accepts exactly
the values between 0 and 150, both bounds included, and rejects −5 and 200
with a ValidationError. -/
theorem numeric_bounds_inclusive :
    (∀ q : Rat, validateFields [ageField] (ageRecord q) = .ok () ↔ (0 ≤ q ∧ q ≤ 150)) ∧
      isValidationErrE (validateFields [ageField] (ageRecord (-5))) = true ∧
      isValidationErrE (validateFields [ageField] (ageRecord 200)) = true := by
  refine ⟨?_, by decide, by decide⟩
  intro q
  simp only [validateFields, ageField, ageRecord, containsKey, lookupKey, checkFieldValue,
    typeOk, Value.is_number, checkMin, checkMax, Value.as_f64]
  norm_num
  split_ifs with h1 h2 h3
  · exact absurd h1.1 (by decide)
  · simp only [false_iff, not_and, not_le]
    intro h
    linarith
  · simp only [false_iff, not_and, not_le]
    intro h
    linarith
  · simp only [true_iff]
    constructor <;> linarith
/-- C2 counterexample: with a string field bounded by min 1 / max 3, the
value `"ééé"` has character length 3, inside [1, 3], yet validation rejects
the record: the source compares the UTF-8 byte length (6 here), not the
character count. -/
theorem string_bound_char_length_counterexample :
    ("ééé" : String).length = 3 ∧
      ((1 : Rat) ≤ (("ééé" : String).length : Rat) ∧ (("ééé" : String).length : Rat) ≤ 3) ∧
      isValidationErrE (validateFields [nameBoundField] rAccent) = true := by
  refine ⟨by decide, ⟨by decide, by decide⟩, by decide⟩

/-- C2 (amended): for a string-typed field carrying a rule with both bounds,
the value check passes exactly when the string's UTF-8 byte length lies
within [min as usize, max as usize]; the character count plays no role. -/
theorem string_bound_uses_byte_length (nm : String) (req : Bool) (pat : Option String)
    (mn mx : Rat) (s : String) :
    checkFieldValue ⟨nm, "string", req, some ⟨some mn, some mx, pat⟩⟩ (.str s) = .ok ()
      ↔ (f64AsUsize mn ≤ s.utf8ByteSize ∧ s.utf8ByteSize ≤ f64AsUsize mx) := by
  simp only [checkFieldValue, typeOk, Value.is_string, checkMin, checkMax, Value.as_str]
  norm_num
  split_ifs with h1 h2 h3
  · exact absurd h1 (by decide)
  · simp only [false_iff, not_and, not_le]
    intro h
    omega
  · simp only [false_iff, not_and, not_le]
    intro h
    omega
  · simp only [true_iff]
    omega

/-- C6: the filter operation always succeeds; its result holds exactly the
stored records matching every predicate (logical AND), and with an empty
predicate list every stored record is returned. -/
theorem filter_conjunction_semantics (s : InMemoryStorage) (fs : List Filter) (r : Resource) :
    isOkE (s.filter fs) = true ∧
      (r ∈ okList (s.filter fs) ↔
        (r ∈ s.resources.map Prod.snd ∧ ∀ f ∈ fs, matches_filter r f = true)) ∧
      s.filter [] = .ok (s.resources.map Prod.snd) := by
  refine ⟨rfl, ?_, ?_⟩
  · simp [InMemoryStorage.filter, okList, List.mem_filter, List.all_eq_true]
  · simp [InMemoryStorage.filter]

/-- C6 witness: with two stored records and an age-gt-28 predicate, the
filter result contains the John record, matching the conjunction test. -/
theorem filter_conjunction_semantics_witness :
    isOkE ((InMemoryStorage.mk [("1", rJohn)]).filter []) = true ∧
      (rJohn ∈ okList ((InMemoryStorage.mk [("1", rJohn)]).filter []) ↔
        (rJohn ∈ (InMemoryStorage.mk [("1", rJohn)]).resources.map Prod.snd ∧
          ∀ f ∈ ([] : List Filter), matches_filter rJohn f = true)) ∧
      (InMemoryStorage.mk [("1", rJohn)]).filter []
        = .ok ((InMemoryStorage.mk [("1", rJohn)]).resources.map Prod.snd) :=
  filter_conjunction_semantics (InMemoryStorage.mk [("1", rJohn)]) [] rJohn

/-- C7: a single predicate never raises an error, it merely fails to match:
with an unknown operator, with gt/lt when a side is not numeric, and for a
field absent from the record (any operator); filtering stays Ok. -/
theorem matches_filter_silent_non_match (r : Resource) (f : Filter) :
    (f.operator ≠ "eq" → f.operator ≠ "ne" → f.operator ≠ "gt" → f.operator ≠ "lt" →
      f.operator ≠ "contains" → matches_filter r f = false) ∧
    (∀ v, lookupKey r.data f.field = some v → (f.operator = "gt" ∨ f.operator = "lt") →
      (v.as_f64 = none ∨ f.value.as_f64 = none) → matches_filter r f = false) ∧
    (lookupKey r.data f.field = none → matches_filter r f = false) ∧
    (∀ s : InMemoryStorage, isOkE (s.filter [f]) = true) := by
  refine ⟨?_, ?_, ?_, fun s => rfl⟩
  · intro h1 h2 h3 h4 h5
    unfold matches_filter
    cases hl : lookupKey r.data f.field with
    | none => rfl
    | some v => simp [h1, h2, h3, h4, h5]
  · intro v hv hop hnum
    unfold matches_filter
    rw [hv]
    rcases hop with hop | hop <;> rw [hop] <;>
      rcases hnum with hn | hn <;> simp [hn]
  · intro h
    unfold matches_filter
    rw [h]

/-- C8: update is a wholesale replace: after creating `r1` and successfully
updating its id with a schema-valid `r2`, get returns exactly `r2` and
nothing of `r1` survives. -/
theorem update_replaces_wholesale (m : ResourceManager) (r1 r2 : Resource)
    (hv1 : m.validate r1 = .ok ()) (hv2 : m.validate r2 = .ok ())
    (hid : containsKey m.storage.resources r1.id = false) (hsame : r2.id = r1.id) :
    (((m.create r1).2).update r1.id r2).1 = .ok r2 ∧
      ((((m.create r1).2).update r1.id r2).2).get r1.id = .ok r2 := by
  have hc : (m.create r1).2 = ⟨m.definition, ⟨insertKey m.storage.resources r1.id r1⟩⟩ := by
    simp [ResourceManager.create, hv1, InMemoryStorage.create, hid]
  rw [hc]
  have hv2b : ResourceManager.validate
      ⟨m.definition, ⟨insertKey m.storage.resources r1.id r1⟩⟩ r2 = .ok () := hv2
  have hck : containsKey (insertKey m.storage.resources r1.id r1) r1.id = true := by
    simp [containsKey, lookupKey_insertKey_self]
  have hu : ResourceManager.update
      ⟨m.definition, ⟨insertKey m.storage.resources r1.id r1⟩⟩ r1.id r2
      = (.ok r2, ⟨m.definition,
          ⟨insertKey (insertKey m.storage.resources r1.id r1) r1.id r2⟩⟩) := by
    simp [ResourceManager.update, hv2b, InMemoryStorage.update, hck]
  rw [hu]
  refine ⟨rfl, ?_⟩
  simp [ResourceManager.get, InMemoryStorage.get, lookupKey_insertKey_self]

/-- C8 witness: create `rJohn` under id 1, update id 1 with `rJane`; get 1
returns exactly `rJane`. -/
theorem update_replaces_wholesale_witness :
    mgr0.validate rJohn = .ok () ∧ mgr0.validate rJane = .ok () ∧
      containsKey mgr0.storage.resources rJohn.id = false ∧ rJane.id = rJohn.id ∧
      ((((mgr0.create rJohn).2).update rJohn.id rJane).1 = .ok rJane ∧
        ((((mgr0.create rJohn).2).update rJohn.id rJane).2).get rJohn.id = .ok rJane) :=
  ⟨by rfl, by rfl, by decide, by rfl,
    update_replaces_wholesale mgr0 rJohn rJane (by rfl) (by rfl) (by decide) (by rfl)⟩

/-- C9: updating a present key `id` with a schema-valid record whose own id
differs succeeds, stores the record under the key `id` without rewriting the
record's id field, so the stored id field diverges from the storage key. -/
theorem update_stores_under_key_without_id_rewrite (m : ResourceManager) (id : String)
    (r : Resource) (hv : m.validate r = .ok ())
    (hp : containsKey m.storage.resources id = true) (hne : r.id ≠ id) :
    (m.update id r).1 = .ok r ∧
      lookupKey ((m.update id r).2).storage.resources id = some r ∧
      ((m.update id r).2).get id = .ok r ∧ r.id ≠ id := by
  have hu : m.update id r = (.ok r, ⟨m.definition, ⟨insertKey m.storage.resources id r⟩⟩) := by
    simp [ResourceManager.update, hv, InMemoryStorage.update, hp]
  rw [hu]
  exact ⟨rfl, lookupKey_insertKey_self _ _ _, by
    simp [ResourceManager.get, InMemoryStorage.get, lookupKey_insertKey_self], hne⟩

/-- C9 witness: with id 1 stored, updating key 1 with the record `rOther`
(whose id field is 2) succeeds and get 1 returns the record with id 2. -/
theorem update_stores_under_key_without_id_rewrite_witness :
    mgrDup.validate rOther = .ok () ∧ containsKey mgrDup.storage.resources "1" = true ∧
      rOther.id ≠ "1" ∧
      ((mgrDup.update "1" rOther).1 = .ok rOther ∧
        lookupKey ((mgrDup.update "1" rOther).2).storage.resources "1" = some rOther ∧
        ((mgrDup.update "1" rOther).2).get "1" = .ok rOther ∧ rOther.id ≠ "1") :=
  ⟨by rfl, by decide, by decide,
    update_stores_under_key_without_id_rewrite mgrDup "1" rOther (by rfl) (by decide) (by decide)⟩

/-- C10: validation inspects only declared fields: extending the data of a
successfully validating record with keys matching no declared field name
still validates successfully. -/
theorem validate_ignores_undeclared_keys (d : ResourceDefinition) (r : Resource)
    (extra : List (String × Value))
    (hok : validateFields d.fields r = .ok ())
    (hnd : ∀ fld ∈ d.fields, ∀ p ∈ extra, p.1 ≠ fld.name) :
    validateFields d.fields ⟨r.id, r.data ++ extra⟩ = .ok () := by
  have h : ∀ fld ∈ d.fields,
      lookupKey (Resource.mk r.id (r.data ++ extra)).data fld.name
        = lookupKey r.data fld.name :=
    fun fld hf => lookupKey_append_right_eq r.data extra fld.name (fun p hp => hnd fld hf p hp)
  rw [validateFields_congr d.fields r ⟨r.id, r.data ++ extra⟩ h, hok]

/-- C10 witness: `rJohn` extended with an undeclared `extra` key still
validates against the `users` schema. -/
theorem validate_ignores_undeclared_keys_witness :
    validateFields userDefn.fields rJohn = .ok () ∧
      (∀ fld ∈ userDefn.fields, ∀ p ∈ [("extra", Value.bool true)], p.1 ≠ fld.name) ∧
      validateFields userDefn.fields ⟨rJohn.id, rJohn.data ++ [("extra", Value.bool true)]⟩
        = .ok () :=
  ⟨by rfl, by decide,
    validate_ignores_undeclared_keys userDefn rJohn [("extra", Value.bool true)]
      (by rfl) (by decide)⟩

/-- C2 amended witness: the bound check at min 1 / max 3 accepts the
three-byte ASCII string `abc`. -/
theorem string_bound_uses_byte_length_witness :
    checkFieldValue ⟨"name", "string", true, some ⟨some 1, some 3, none⟩⟩ (.str "abc") = .ok ()
      ↔ (f64AsUsize 1 ≤ ("abc" : String).utf8ByteSize ∧
          ("abc" : String).utf8ByteSize ≤ f64AsUsize 3) :=
  string_bound_uses_byte_length "name" true none 1 3 "abc"

/-- C5 witness: the value 30 is accepted by the 0..150 number bound. -/
theorem numeric_bounds_inclusive_witness :
    validateFields [ageField] (ageRecord 30) = .ok () :=
  (numeric_bounds_inclusive.1 30).mpr (by norm_num)

/-- C7 witness: instantiation at the record `rJohn` and a predicate with the
unknown operator `unknown` over the absent field `age`. -/
theorem matches_filter_silent_non_match_witness :
    ((Filter.mk "age" "unknown" (.num 1)).operator ≠ "eq" →
      (Filter.mk "age" "unknown" (.num 1)).operator ≠ "ne" →
      (Filter.mk "age" "unknown" (.num 1)).operator ≠ "gt" →
      (Filter.mk "age" "unknown" (.num 1)).operator ≠ "lt" →
      (Filter.mk "age" "unknown" (.num 1)).operator ≠ "contains" →
      matches_filter rJohn (Filter.mk "age" "unknown" (.num 1)) = false) ∧
    (∀ v, lookupKey rJohn.data (Filter.mk "age" "unknown" (.num 1)).field = some v →
      ((Filter.mk "age" "unknown" (.num 1)).operator = "gt" ∨
        (Filter.mk "age" "unknown" (.num 1)).operator = "lt") →
      (v.as_f64 = none ∨ (Filter.mk "age" "unknown" (.num 1)).value.as_f64 = none) →
      matches_filter rJohn (Filter.mk "age" "unknown" (.num 1)) = false) ∧
    (lookupKey rJohn.data (Filter.mk "age" "unknown" (.num 1)).field = none →
      matches_filter rJohn (Filter.mk "age" "unknown" (.num 1)) = false) ∧
    (∀ s : InMemoryStorage, isOkE (s.filter [Filter.mk "age" "unknown" (.num 1)]) = true) :=
  matches_filter_silent_non_match rJohn (Filter.mk "age" "unknown" (.num 1))


end MetaRest
